import Mathlib

/-!
Verification of the `rpg_game` combat engine.

Shallow embedding of the Python sources under `rpg_game/`:
pure computations become Lean functions, in-place mutation becomes
explicit state passing, Python `int` becomes `Int`, Python exceptions
become `Except PyError`, and the pseudo-random draws become explicit
Boolean oracle arguments (one per `random.random()` comparison).
Python dicts (insertion-ordered, unique keys) become association lists.
-/

/-- A Python runtime exception, as raised by the embedded code. -/
inductive PyError where
  | attributeError (msg : String)
  | typeError (msg : String)
deriving DecidableEq

/-- Python `str.lower()` (the ability strings in this program are ASCII). -/
def pyLower (s : String) : String := String.mk (s.data.map Char.toLower)

/-- Python `int(x * 1.2)` for an int `x` (`Character.level_up`).
`1.2` is not exact in binary floating point, but for every `x` in the
interpreter's exactly-representable range the product `x * 1.2` rounds to a
float whose truncation toward zero equals `trunc(6x/5)`: the exact value
`6x/5` has fractional part in `{0, 1/5, 2/5, 3/5, 4/5}` and the rounding
error (relative size about `2^-53`) can never carry the product across an
integer boundary, while an exactly integral `6x/5` rounds to itself. -/
def pyIntTimes1p2 (x : Int) : Int := Int.tdiv (x * 6) 5

/-- Python `int(x * 0.25)` for an int `x` (`Villain.attack`).
`0.25` is exact in binary floating point, so this is `trunc(x/4)`. -/
def pyIntTimes0p25 (x : Int) : Int := Int.tdiv x 4

/-- Modelled from the spec: class `Weapon` lives in `rpg_game/weapon.py`,
which is not among the provided sources; the spec describes the equipped
weapon as a "name + flat damage bonus" reference, which is exactly how
`character.py` and `inventory.py` use it (`weapon.name`,
`weapon.damage_bonus`, and its class identity for `isinstance`). -/
structure Weapon where
  name : String
  damage_bonus : Int
deriving DecidableEq

/-- One record of `GameLogger.log_history` (`game_logger.py`).
The wall-clock `timestamp` field is presentational and is not modelled. -/
structure LogEntry where
  attacker : String
  defender : String
  damage : Int
  ability : String
deriving DecidableEq

/-- `GameLogger.log_combat` (`game_logger.py`): appends one record;
a missing ability tag is stored as `"basic_attack"`. -/
def logCombat (history : List LogEntry) (attacker defender : String)
    (damage : Int) (ability : Option String) : List LogEntry :=
  history ++ [⟨attacker, defender, damage, ability.getD "basic_attack"⟩]

/-- `Character` (`character.py`). `_health` is the private health field. -/
structure Character where
  name : String
  health : Int
  damage : Int
  weapon : Option Weapon
  is_boss : Bool
  level : Int
  experience : Int
  experience_to_next_level : Int
deriving DecidableEq

/-- `Character.__init__` (`character.py`): `experience_to_next_level` is
initialised to `calculate_experience_to_next_level() = 100 * level`. -/
def Character.mkNew (name : String) (health damage : Int)
    (weapon_name : Option String) (weapon_damage : Int)
    (level experience : Int) : Character :=
  { name := name
    health := health
    damage := damage
    weapon := weapon_name.map (fun n => ⟨n, weapon_damage⟩)
    is_boss := false
    level := level
    experience := experience
    experience_to_next_level := 100 * level }

/-- `Character.get_health`. -/
def Character.get_health (c : Character) : Int := c.health

/-- `Character.set_health`: clamps at 0 from below. -/
def Character.set_health (c : Character) (new_health : Int) : Character :=
  { c with health := max 0 new_health }

/-- `Character.take_damage`. -/
def Character.take_damage (c : Character) (damage : Int) : Character :=
  c.set_health (c.get_health - damage)

/-- `Character.calculate_damage`: base plus the weapon bonus, if any. -/
def Character.calculate_damage (c : Character) (base_damage : Int) : Int :=
  match c.weapon with
  | some w => base_damage + w.damage_bonus
  | none => base_damage

/-- `Character.level_up`: `level += 1`, then `health = int(health * 1.2)`,
`damage = int(damage * 1.2)`, `experience = 0`, and
`experience_to_next_level = 100 * level` with the incremented level. -/
def Character.level_up (c : Character) : Character :=
  { c with
    level := c.level + 1
    health := pyIntTimes1p2 c.health
    damage := pyIntTimes1p2 c.damage
    experience := 0
    experience_to_next_level := 100 * (c.level + 1) }

/-- `Character.gain_experience`: adds the amount, then levels up (once)
iff the new experience reaches `experience_to_next_level`. -/
def Character.gain_experience (c : Character) (amount : Int) :
    Bool × Character :=
  let c := { c with experience := c.experience + amount }
  if c.experience_to_next_level ≤ c.experience then (true, c.level_up)
  else (false, c)

/-- `Character.attack` (`character.py`): logs, then applies the damage. -/
def Character.attack (c : Character) (target : Character)
    (log : List LogEntry) : Int × Character × List LogEntry :=
  let total_damage := c.calculate_damage c.damage
  let log := logCombat log c.name target.name total_damage none
  let target := target.take_damage total_damage
  (total_damage, target, log)

/-- `Villain` (`villain.py`). -/
structure Villain extends Character where
  special_ability : String
deriving DecidableEq

/-- `Villain.use_special_ability` (`villain.py`): only `"dark magic"`
(case-insensitively) is implemented; the damage is applied, then logged
with the ability tag; any other ability string returns 0 with no effect. -/
def Villain.use_special_ability (v : Villain) (target : Character)
    (log : List LogEntry) : Int × Character × List LogEntry :=
  if pyLower v.special_ability = "dark magic" then
    let base_damage := v.damage * 2
    let total_damage := v.toCharacter.calculate_damage base_damage
    let target := target.take_damage total_damage
    let log := logCombat log v.name target.name total_damage
      (some v.special_ability)
    (total_damage, target, log)
  else (0, target, log)

/-- `Villain.attack` (`villain.py`): `special_roll` stands for the draw
`random.random() < 0.2` (a 20% chance); when it fires the call delegates
to `use_special_ability`, otherwise a normal attack with a
`int(damage * 0.25)` bonus is performed (applied, then logged untagged). -/
def Villain.attack (v : Villain) (special_roll : Bool) (target : Character)
    (log : List LogEntry) : Int × Character × List LogEntry :=
  if special_roll then v.use_special_ability target log
  else
    let bonus_damage := pyIntTimes0p25 v.damage
    let total_damage := v.toCharacter.calculate_damage (v.damage + bonus_damage)
    let target := target.take_damage total_damage
    let log := logCombat log v.name target.name total_damage none
    (total_damage, target, log)

/-- `Sidekick` (`sidekick.py`). -/
structure Sidekick extends Character where
  support_ability : String
deriving DecidableEq

/-- The heal amount computed inside `use_support_ability` (`sidekick.py`,
line 58): a fixed 15 for the sidekick named exactly `"Healing Spirit"`,
`damage // 2` (Python floor division) otherwise. -/
def Sidekick.heal_amount (s : Sidekick) : Int :=
  if s.name = "Healing Spirit" then 15 else Int.fdiv s.damage 2

/-- `Sidekick.use_support_ability` (`sidekick.py`): for `"heal"`
(case-insensitively) the heal amount is a fixed 15 for the sidekick named
`"Healing Spirit"` and `damage // 2` otherwise.  The source then reads
`getattr(target, '_max_health', float('inf'))`; no class in the program
ever assigns `_max_health`, so the ceiling is `+inf` and
`actual_heal = min(heal_amount, inf - health) = heal_amount`.  Only when
`actual_heal > 0` is the health written and a log entry (negated heal,
ability-tagged) appended.  Any other ability string has no effect. -/
def Sidekick.use_support_ability (s : Sidekick) (target : Character)
    (log : List LogEntry) : Character × List LogEntry :=
  if pyLower s.support_ability = "heal" then
    let heal_amount : Int := s.heal_amount
    let target_health := target.get_health + heal_amount
    let actual_heal := heal_amount
    if 0 < actual_heal then
      let target := target.set_health target_health
      let log := logCombat log s.name target.name (-actual_heal)
        (some s.support_ability)
      (target, log)
    else (target, log)
  else (target, log)

/-- `Item` hierarchy (`inventory.py`): `Item`, `Consumable`, `Armor`, plus
`Weapon` objects which `Inventory.equip_item` accepts through duck typing;
Python's dynamic class dispatch becomes a closed inductive. -/
inductive Item where
  | basic (name description : String) (value : Int)
  | consumable (name description : String) (value : Int) (heal_amount : Int)
  | armor (name description : String) (value : Int) (defense_bonus : Int)
  | weaponItem (w : Weapon)
deriving DecidableEq

/-- The `name` attribute shared by every item-like object. -/
def Item.name : Item → String
  | .basic n _ _ => n
  | .consumable n _ _ _ => n
  | .armor n _ _ _ => n
  | .weaponItem w => w.name

/-- `isinstance(item, Weapon)`. -/
def Item.isWeaponInstance : Item → Bool
  | .weaponItem _ => true
  | _ => false

/-- `isinstance(item, Armor)`. -/
def Item.isArmorInstance : Item → Bool
  | .armor _ _ _ _ => true
  | _ => false

/-- `isinstance(item, Consumable)`. -/
def Item.isConsumableInstance : Item → Bool
  | .consumable _ _ _ _ => true
  | _ => false

/-- One value of the `Inventory.items` dict:
`{'item': Item, 'quantity': int}`. -/
structure Stack where
  item : Item
  quantity : Int
deriving DecidableEq

/-- First-match lookup in the association list modelling the dict. -/
def lookupStack : List (String × Stack) → String → Option Stack
  | [], _ => none
  | (k, v) :: rest, n => if k = n then some v else lookupStack rest n

/-- Dict membership test (`item_name in self.items`). -/
def containsKey (l : List (String × Stack)) (n : String) : Bool :=
  (lookupStack l n).isSome

/-- In-place update of the entry under a key (`self.items[name] = ...`). -/
def modifyStack : List (String × Stack) → String → (Stack → Stack) →
    List (String × Stack)
  | [], _, _ => []
  | (k, v) :: rest, n, f =>
    if k = n then (k, f v) :: rest else (k, v) :: modifyStack rest n f

/-- Deletion of the entry under a key (`del self.items[name]`). -/
def eraseKey : List (String × Stack) → String → List (String × Stack)
  | [], _ => []
  | (k, v) :: rest, n => if k = n then rest else (k, v) :: eraseKey rest n

/-- The in-place decrement `self.items[item_name]['quantity'] -= quantity`
of `remove_item`, as the update applied to the stack under the key. -/
def decrementStack (quantity : Int) (s : Stack) : Stack :=
  { s with quantity := s.quantity - quantity }

/-- `Inventory` (`inventory.py`): the item dict, the two equipment slots,
and the gold balance. -/
structure Inventory where
  items : List (String × Stack)
  weapon_slot : Option Item
  armor_slot : Option Item
  gold : Int
deriving DecidableEq

/-- `Inventory.__init__`. -/
def Inventory.empty : Inventory :=
  { items := [], weapon_slot := none, armor_slot := none, gold := 0 }

/-- `Inventory.add_item`: increments an existing stack, otherwise inserts
a fresh entry (at the end, as Python dicts preserve insertion order). -/
def Inventory.add_item (inv : Inventory) (item : Item) (quantity : Int) :
    Inventory :=
  if containsKey inv.items item.name then
    let items := modifyStack inv.items item.name
      (fun st => { st with quantity := st.quantity + quantity })
    { inv with items := items }
  else
    { inv with items := inv.items ++ [(item.name, ⟨item, quantity⟩)] }

/-- `Inventory.remove_item`: fails if the name is absent or the stored
quantity is below the requested one; otherwise decrements and deletes the
entry when the decremented quantity is exactly zero. -/
def Inventory.remove_item (inv : Inventory) (item_name : String)
    (quantity : Int) : Bool × Inventory :=
  match lookupStack inv.items item_name with
  | some st =>
    if quantity ≤ st.quantity then
      let items := modifyStack inv.items item_name (decrementStack quantity)
      if st.quantity - quantity = 0 then
        (true, { inv with items := eraseKey items item_name })
      else
        (true, { inv with items := items })
    else (false, inv)
  | none => (false, inv)

/-- `Inventory.equip_item`: a `Weapon` instance fills the weapon slot, an
`Armor` instance the armor slot; anything else is rejected unchanged. -/
def Inventory.equip_item (inv : Inventory) (item : Item) : Bool × Inventory :=
  match item with
  | .weaponItem _ => (true, { inv with weapon_slot := some item })
  | .armor _ _ _ _ => (true, { inv with armor_slot := some item })
  | _ => (false, inv)

/-- `Inventory.use_consumable`: requires the name to be present and the
object to be a `Consumable`, then removes one unit. -/
def Inventory.use_consumable (inv : Inventory) (item : Item) :
    Bool × Inventory :=
  if containsKey inv.items item.name && item.isConsumableInstance then
    let r := inv.remove_item item.name 1
    if r.1 then (true, r.2) else (false, r.2)
  else (false, inv)

/-- The attribute access `item.value` inside `Inventory.get_total_value`,
where `item` is bound by `for item, quantity in self.items.items()` and is
therefore the dict KEY, a `str`: Python raises `AttributeError`. -/
def strAttrValue (_s : String) : Except PyError Int :=
  .error (.attributeError "str object has no attribute value")

/-- The multiplication `item.value * quantity` of the same loop, where
`quantity` is the per-item dict `{'item': ..., 'quantity': ...}`: an
`int * dict` product would raise `TypeError` (never reached, since the
attribute access before it already raises). -/
def intTimesStackDict (_v : Int) (_st : Stack) : Except PyError Int :=
  .error (.typeError "unsupported operand types for mul: int and dict")

/-- `Inventory.get_total_value` (`inventory.py`): starts from the gold and
iterates `for item, quantity in self.items.items()`, which binds `item`
to the key string and `quantity` to the per-item dict, so the body
`total += item.value * quantity` raises on the first stack. -/
def Inventory.get_total_value (inv : Inventory) : Except PyError Int :=
  inv.items.foldlM
    (fun total kv => do
      let v ← strAttrValue kv.1
      let prod ← intTimesStackDict v kv.2
      pure (total + prod))
    inv.gold

/-- `Game.use_item` (`game.py`, lines 464-494): collects the consumable
stacks in dict order; with none it prints and returns; otherwise it asks
`get_valid_input` for a choice, which returns the chosen option STRING
(`"1"`, `"2"`, ...), and then evaluates `consumables[choice]` - indexing a
list with a `str` - so Python raises `TypeError` before any item is used.
The subsequent `use_consumable`/`set_health` lines are unreachable. -/
def Game.use_item (character : Character) (inv : Inventory) :
    Except PyError (Character × Inventory) :=
  let consumables := inv.items.filterMap
    (fun kv => if kv.2.item.isConsumableInstance then some kv.2.item else none)
  if consumables.isEmpty then .ok (character, inv)
  else .error (.typeError "list indices must be integers or slices, not str")

/-- `Game.add_loot` (`game.py`, lines 496-517): gold is credited
unconditionally first; `potion_roll` stands for `random.random() < 0.5`
and `armor_roll` for the independent `random.random() < 0.3`. -/
def Game.add_loot (inv : Inventory) (enemy_name : String) (enemy_damage : Int)
    (potion_roll armor_roll : Bool) : Inventory :=
  let inv := { inv with gold := inv.gold + enemy_damage * 5 }
  let inv := if potion_roll then
      inv.add_item (Item.consumable "Health Potion" "Restores 20 health" 10 20) 1
    else inv
  let inv := if armor_roll then
      inv.add_item (Item.armor (enemy_name ++ "'s Armor")
        ("Armor dropped by " ++ enemy_name) 50 (Int.fdiv enemy_damage 2)) 1
    else inv
  inv

/-- The enemy of an encounter: a plain `Boss` (which attacks exactly like
`Character`) or a `Villain` with its overridden `attack`. -/
inductive Enemy where
  | ofBoss (c : Character)
  | ofVillain (v : Villain)
deriving DecidableEq

/-- The character state carried by the enemy. -/
def Enemy.chr : Enemy → Character
  | .ofBoss c => c
  | .ofVillain v => v.toCharacter

/-- Replace the enemy's character state (in-place mutation in Python). -/
def Enemy.withChr : Enemy → Character → Enemy
  | .ofBoss _, c => .ofBoss c
  | .ofVillain v, c => .ofVillain { v with toCharacter := c }

/-- Virtual dispatch of `enemy.attack(player, logger)`:
`Boss` inherits `Character.attack`; `Villain` overrides it. -/
def Enemy.attack (e : Enemy) (special_roll : Bool) (target : Character)
    (log : List LogEntry) : Int × Character × List LogEntry :=
  match e with
  | .ofBoss c => c.attack target log
  | .ofVillain v => v.attack special_roll target log

/-- One action of the combat menu (`game.py`, lines 219-275).  The menu
strings are `"1"` (Attack), `"2"` (Use Item), `"3"` (Sidekick Action, only
offered when a sidekick exists) and the last number (View Inventory);
when no sidekick exists the string `"3"` IS the View Inventory option. -/
inductive PlayerAction where
  | attack
  | useItem
  | sidekickAction
  | viewInventory
deriving DecidableEq

/-- The mutable state touched by one round of `Game.combat`. -/
structure GameState where
  player : Character
  enemy : Enemy
  sidekicks : List Sidekick
  inventory : Inventory
  log : List LogEntry
deriving DecidableEq

/-- How one iteration of the `while` loop in `Game.combat` ends:
`won`/`lost` are the `return True`/`return False` exits and `next` loops
back to the action menu. -/
inductive RoundResult where
  | won (s : GameState)
  | lost (s : GameState)
  | next (s : GameState)
deriving DecidableEq

/-- The per-round oracle for the pseudo-random draws. -/
structure Rng where
  villain_roll : Bool
  potion_roll : Bool
  armor_roll : Bool
deriving DecidableEq

/-- The tail of the loop body (`game.py`, lines 277-288): if the enemy is
still alive it attacks exactly once; a dead player ends the encounter as a
loss.  The second component counts how often `enemy.attack` ran. -/
def enemyTurn (s : GameState) (rng : Rng) : RoundResult × Nat :=
  if 0 < s.enemy.chr.get_health then
    let r := s.enemy.attack rng.villain_roll s.player s.log
    let s := { s with player := r.2.1, log := r.2.2 }
    if s.player.get_health ≤ 0 then (.lost s, 1) else (.next s, 1)
  else (.next s, 0)

/-- One iteration of the `while` loop of `Game.combat` (`game.py`, lines
215-288), for a chosen action.  `Attack` checks for the kill and then
awards experience and loot; `Use Item` and `View Inventory` re-loop with
`continue` before the enemy's turn; `Sidekick Action` (with no sidekick
present, the same menu string is the View Inventory option) falls through
to the enemy's turn.  The `Nat` counts invocations of `enemy.attack`. -/
def combatRound (s : GameState) (a : PlayerAction) (rng : Rng) :
    Except PyError (RoundResult × Nat) :=
  match a with
  | .attack =>
    let r := s.player.attack s.enemy.chr s.log
    let s := { s with enemy := s.enemy.withChr r.2.1, log := r.2.2 }
    if s.enemy.chr.get_health ≤ 0 then
      let xp_gain := s.enemy.chr.damage * 10
      let player := (s.player.gain_experience xp_gain).2
      let inventory := Game.add_loot s.inventory s.enemy.chr.name
        s.enemy.chr.damage rng.potion_roll rng.armor_roll
      .ok (.won { s with player := player, inventory := inventory }, 0)
    else
      .ok (enemyTurn s rng)
  | .useItem =>
    match Game.use_item s.player s.inventory with
    | .ok pi => .ok (.next { s with player := pi.1, inventory := pi.2 }, 0)
    | .error e => .error e
  | .sidekickAction =>
    match s.sidekicks with
    | [] => .ok (.next s, 0)
    | sk :: _ =>
      let r := sk.use_support_ability s.player s.log
      .ok (enemyTurn { s with player := r.1, log := r.2 } rng)
  | .viewInventory => .ok (.next s, 0)

/-- A player character as `setup_game` builds it (Rock weapon, +2). -/
def heroChar : Character := Character.mkNew "Hero" 110 10 (some "Rock") 2 1 0

/-- The player at health 95 from the spec's healing scenario. -/
def hero95 : Character := Character.mkNew "Hero" 95 10 (some "Rock") 2 1 0

/-- A high-damage player used to finish an enemy in one attack. -/
def strongHero : Character := Character.mkNew "Hero" 110 60 none 0 1 0

/-- The fixed healing consumable dropped as loot (`game.py`, line 511). -/
def potionItem : Item := .consumable "Health Potion" "Restores 20 health" 10 20

/-- An inventory holding one Health Potion stack and some gold. -/
def invWithPotion : Inventory :=
  { items := [("Health Potion", ⟨potionItem, 1⟩)]
    weapon_slot := none
    armor_slot := none
    gold := 3 }

/-- An inventory holding a single unit of a plain item named "Potion". -/
def potionOnlyInv : Inventory :=
  { items := [("Potion", ⟨Item.basic "Potion" "A potion" 5, 1⟩)]
    weapon_slot := none
    armor_slot := none
    gold := 0 }

/-- The Goblin King of `setup_game`, with its health lowered to 10 so that
one hit from `strongHero` finishes it. -/
def weakBoss : Enemy := .ofBoss (Character.mkNew "Goblin King" 10 8 none 0 1 0)

/-- The Shadow Knight villain of `setup_game` (`game.py`, line 129). -/
def shadowKnight : Villain :=
  { toCharacter := Character.mkNew "Shadow Knight" 70 12 (some "Dark Sword") 5 1 0
    special_ability := "Dark Magic" }

/-- The Healing Spirit sidekick of `choose_sidekick` with the stats of
`constants.py` (no weapon: `choose_sidekick` passes none). -/
def healingSpirit : Sidekick :=
  { toCharacter := Character.mkNew "Healing Spirit" 50 3 none 0 1 0
    support_ability := "Heal" }

/-- A heal-capable sidekick whose base damage 1 makes the heal amount 0. -/
def apprentice : Sidekick :=
  { toCharacter := Character.mkNew "Apprentice" 40 1 none 0 1 0
    support_ability := "Heal" }

/-- A combat state in which the player can kill the enemy in one attack. -/
def demoState : GameState :=
  { player := strongHero
    enemy := weakBoss
    sidekicks := []
    inventory := Inventory.empty
    log := [] }

/-- A combat state whose inventory holds a consumable. -/
def potionState : GameState :=
  { player := heroChar
    enemy := weakBoss
    sidekicks := []
    inventory := invWithPotion
    log := [] }

/-- A fixed outcome for every random draw of a round. -/
def demoRng : Rng :=
  { villain_roll := false, potion_roll := true, armor_roll := true }

/-- A `Weapon` object, as `Inventory.equip_item` may receive one. -/
def rockWeaponItem : Item := .weaponItem ⟨"Rock", 2⟩

/-- Truncating and flooring integer division agree when both operands are
nonnegative (so Python `int(x/…)` and `x // …` agree there). -/
theorem tdiv_eq_fdiv_of_nonneg (a b : Int) (ha : 0 ≤ a) (hb : 0 ≤ b) :
    Int.tdiv a b = Int.fdiv a b :=
  (Int.fdiv_eq_tdiv ha hb).symm

/-- Writing the enemy's character state back and reading it again. -/
theorem chr_withChr (e : Enemy) (c : Character) : (e.withChr c).chr = c := by
  cases e <;> rfl

/-- `add_item` never touches the gold balance. -/
theorem add_item_gold (inv : Inventory) (it : Item) (q : Int) :
    (inv.add_item it q).gold = inv.gold := by
  unfold Inventory.add_item
  split <;> rfl

/-- `add_loot` credits exactly `damage * 5` gold, whatever the drop rolls. -/
theorem add_loot_gold (inv : Inventory) (n : String) (d : Int) (p a : Bool) :
    (Game.add_loot inv n d p a).gold = inv.gold + d * 5 := by
  unfold Game.add_loot
  cases p <;> cases a <;> simp [add_item_gold]

/-- C1 (code bug): `get_total_value` raises `AttributeError` on the first
stack of any non-empty inventory, because the loop binds `item` to the
dict key string; only on an empty inventory does it return the gold.  The
spec instead promises `gold + Σ (value × quantity)` as a normal return. -/
theorem get_total_value_crashes_on_stacks :
    invWithPotion.get_total_value =
      .error (.attributeError "str object has no attribute value") ∧
    (∀ g : Int, ({ Inventory.empty with gold := g }).get_total_value = .ok g) :=
  ⟨rfl, fun _ => rfl⟩

/-- C2 (code bug): the core item-use operation aborts instead of failing
recoverably: with at least one consumable in the inventory, `Game.use_item`
raises `TypeError` (it indexes the consumable list with the menu-choice
string); with no consumable it returns normally. -/
theorem use_item_crashes_with_consumable :
    Game.use_item heroChar invWithPotion =
      .error (.typeError "list indices must be integers or slices, not str") ∧
    Game.use_item heroChar Inventory.empty = .ok (heroChar, Inventory.empty) :=
  ⟨rfl, rfl⟩

/-- C9: for every character and every integer `d` (larger than the current
health, or negative), `takeDamage(d)` sets health to `max 0 (health − d)`;
the resulting health is never negative. -/
theorem take_damage_clamps (c : Character) (d : Int) :
    (c.take_damage d).health = max 0 (c.health - d) ∧
    0 ≤ (c.take_damage d).health :=
  ⟨rfl, le_max_left 0 _⟩

/-- C6 (code bug): with a consumable in the inventory, a round whose
chosen action is Use Item aborts with the `TypeError` from `use_item`
instead of re-looping to action selection (the enemy's attack is indeed
not invoked); with no consumable, Use Item and View Inventory re-loop
without an enemy attack, as the spec states. -/
theorem combatRound_useItem_aborts :
    combatRound potionState .useItem demoRng =
      .error (.typeError "list indices must be integers or slices, not str") ∧
    combatRound { potionState with inventory := Inventory.empty } .useItem
        demoRng =
      .ok (.next { potionState with inventory := Inventory.empty }, 0) ∧
    combatRound potionState .viewInventory demoRng =
      .ok (.next potionState, 0) :=
  ⟨rfl, rfl, rfl⟩

/-- C10: `equipItem` writes only the matching equipment slot: the item
stacks, the gold and the other slot are unchanged, a non-weapon non-armor
item changes nothing, the characters of the game state are untouched, and
the player's `calculate_damage`/`attack` results (which read only the
character's own weapon field) are identical before and after the call. -/
theorem equip_item_frame (s : GameState) (it : Item) :
    ({ s with inventory := (s.inventory.equip_item it).2 }).player =
      s.player ∧
    (s.inventory.equip_item it).2.items = s.inventory.items ∧
    (s.inventory.equip_item it).2.gold = s.inventory.gold ∧
    (it.isWeaponInstance = true →
      (s.inventory.equip_item it).2.weapon_slot = some it ∧
      (s.inventory.equip_item it).2.armor_slot = s.inventory.armor_slot) ∧
    (it.isArmorInstance = true →
      (s.inventory.equip_item it).2.armor_slot = some it ∧
      (s.inventory.equip_item it).2.weapon_slot = s.inventory.weapon_slot) ∧
    (it.isWeaponInstance = false → it.isArmorInstance = false →
      s.inventory.equip_item it = (false, s.inventory)) ∧
    (∀ (t : Character) (log : List LogEntry) (b : Int),
      ({ s with inventory := (s.inventory.equip_item it).2 }).player.attack
          t log =
        s.player.attack t log ∧
      ({ s with
          inventory := (s.inventory.equip_item it).2 }).player.calculate_damage
          b =
        s.player.calculate_damage b) := by
  refine ⟨rfl, ?_, ?_, ?_, ?_, ?_, fun t log b => ⟨rfl, rfl⟩⟩ <;>
    cases it <;>
    simp [Inventory.equip_item, Item.isWeaponInstance, Item.isArmorInstance]

/-- Witness for C10 at a concrete weapon item and game state. -/
theorem equip_item_frame_witness :
    rockWeaponItem.isWeaponInstance = true ∧
    (demoState.inventory.equip_item rockWeaponItem).2.armor_slot =
      demoState.inventory.armor_slot :=
  ⟨rfl, ((equip_item_frame demoState rockWeaponItem).2.2.2.1 rfl).2⟩

/-- C5 counterexample: a heal-capable sidekick with base damage 1 has heal
amount `1 // 2 = 0`; the call changes nothing and appends NO log entry,
where the claim promises one entry with signed damage `-(1 // 2)`. -/
theorem support_heal_zero_counterexample :
    apprentice.use_support_ability hero95 [] = (hero95, []) ∧
    (apprentice.use_support_ability hero95 []).2 ≠
      [⟨"Apprentice", "Hero", -(Int.fdiv apprentice.damage 2), "Heal"⟩] :=
  ⟨by decide, by decide⟩

/-- `take_damage` writes only the health field. -/
theorem take_damage_name (c : Character) (d : Int) :
    (c.take_damage d).name = c.name := rfl

/-- C3: for a villain whose special ability is `"Dark Magic"` (with the
spec's nonnegative base damage), `attack` either delegates entirely to
`use_special_ability` when the 20% draw fires - dealing
`calculateDamage(2 × baseDamage)` with an ability-tagged log entry - or
deals `calculateDamage(baseDamage + floor(0.25 × baseDamage))` with an
untagged entry; the returned value is the damage applied in both cases. -/
theorem villain_attack_branches (v : Villain) (t : Character)
    (log : List LogEntry) (roll : Bool)
    (hab : v.special_ability = "Dark Magic") (hd : 0 ≤ v.damage) :
    (roll = true →
      v.attack roll t log = v.use_special_ability t log ∧
      (v.attack roll t log).1 =
        v.toCharacter.calculate_damage (2 * v.damage) ∧
      (v.attack roll t log).2.1 = t.take_damage (v.attack roll t log).1 ∧
      (v.attack roll t log).2.2 =
        log ++ [⟨v.name, t.name, (v.attack roll t log).1,
                 v.special_ability⟩]) ∧
    (roll = false →
      (v.attack roll t log).1 =
        v.toCharacter.calculate_damage (v.damage + Int.fdiv v.damage 4) ∧
      (v.attack roll t log).2.1 = t.take_damage (v.attack roll t log).1 ∧
      (v.attack roll t log).2.2 =
        log ++ [⟨v.name, t.name, (v.attack roll t log).1,
                 "basic_attack"⟩]) := by
  have hsp : pyLower v.special_ability = "dark magic" := by rw [hab]; rfl
  cases roll
  · refine ⟨fun h => by simp at h, fun _ => ?_⟩
    have h4 : pyIntTimes0p25 v.damage = Int.fdiv v.damage 4 :=
      tdiv_eq_fdiv_of_nonneg v.damage 4 hd (by decide)
    simp [Villain.attack, logCombat, h4, take_damage_name]
  · refine ⟨fun _ => ⟨rfl, ?_, ?_, ?_⟩, fun h => by simp at h⟩ <;>
      simp [Villain.attack, Villain.use_special_ability, hsp, logCombat,
        Int.mul_comm, take_damage_name]

/-- Witness for C3 at the Shadow Knight and a firing special roll. -/
theorem villain_attack_branches_witness :
    shadowKnight.special_ability = "Dark Magic" ∧
    (0:Int) ≤ shadowKnight.damage ∧
    (shadowKnight.attack true heroChar []).1 =
      shadowKnight.toCharacter.calculate_damage (2 * shadowKnight.damage) :=
  ⟨rfl, by decide,
    (((villain_attack_branches shadowKnight heroChar [] true rfl
      (by decide)).1 rfl).2).1⟩

/-- C4: when the player's Attack reduces the enemy's health to 0 or below,
the round ends as a win, the player gains `enemy.damage × 10` experience
through `gain_experience`, and the gold grows by `enemy.damage × 5`
whatever the two drop rolls are. -/
theorem attack_kill_awards (s : GameState) (rng : Rng)
    (hp : 0 < s.player.get_health) (he : 0 < s.enemy.chr.get_health)
    (hkill :
      ((s.player.attack s.enemy.chr s.log).2.1).get_health ≤ 0) :
    ∃ s', combatRound s .attack rng = .ok (.won s', 0) ∧
      s'.player =
        (s.player.gain_experience (s.enemy.chr.damage * 10)).2 ∧
      s'.inventory.gold = s.inventory.gold + s.enemy.chr.damage * 5 := by
  simp only [combatRound, chr_withChr]
  rw [if_pos hkill]
  refine ⟨_, rfl, rfl, ?_⟩
  exact add_loot_gold _ _ _ _ _

/-- Witness for C4 at a one-hit-kill state. -/
theorem attack_kill_awards_witness :
    0 < demoState.player.get_health ∧
    0 < demoState.enemy.chr.get_health ∧
    ((demoState.player.attack demoState.enemy.chr
      demoState.log).2.1).get_health ≤ 0 ∧
    ∃ s', combatRound demoState .attack demoRng = .ok (.won s', 0) ∧
      s'.player =
        (demoState.player.gain_experience
          (demoState.enemy.chr.damage * 10)).2 ∧
      s'.inventory.gold =
        demoState.inventory.gold + demoState.enemy.chr.damage * 5 :=
  ⟨by decide, by decide, by decide,
    attack_kill_awards demoState demoRng (by decide) (by decide) (by decide)⟩

/-- C7: under the `experienceToNextLevel = 100 × level` invariant (and the
spec's nonnegative health and damage), `gainExperience(a)` with
`e + a ≥ 100 × L` returns true and leaves level `L+1`, experience 0,
health `floor(1.2 × health)`, damage `floor(1.2 × damage)` and
`experienceToNextLevel = 100 × (L+1)` - exactly one level-up however large
`a` is - while `e + a < 100 × L` returns false changing only experience. -/
theorem gain_experience_cases (c : Character) (a : Int)
    (hinv : c.experience_to_next_level = 100 * c.level)
    (hh : 0 ≤ c.health) (hd : 0 ≤ c.damage) :
    (100 * c.level ≤ c.experience + a →
      c.gain_experience a =
        (true,
         { c with
            level := c.level + 1
            health := Int.fdiv (c.health * 6) 5
            damage := Int.fdiv (c.damage * 6) 5
            experience := 0
            experience_to_next_level := 100 * (c.level + 1) })) ∧
    (c.experience + a < 100 * c.level →
      c.gain_experience a =
        (false, { c with experience := c.experience + a })) := by
  have e1 : pyIntTimes1p2 c.health = Int.fdiv (c.health * 6) 5 :=
    tdiv_eq_fdiv_of_nonneg _ _ (mul_nonneg hh (by decide)) (by decide)
  have e2 : pyIntTimes1p2 c.damage = Int.fdiv (c.damage * 6) 5 :=
    tdiv_eq_fdiv_of_nonneg _ _ (mul_nonneg hd (by decide)) (by decide)
  constructor
  · intro h
    unfold Character.gain_experience
    rw [if_pos (by simpa [hinv] using h)]
    unfold Character.level_up
    simp [e1, e2]
  · intro h
    unfold Character.gain_experience
    rw [if_neg (by simp [hinv]; omega)]

/-- Witness for C7: the starting player gains 100 experience at level 1. -/
theorem gain_experience_cases_witness :
    heroChar.experience_to_next_level = 100 * heroChar.level ∧
    (0:Int) ≤ heroChar.health ∧ (0:Int) ≤ heroChar.damage ∧
    100 * heroChar.level ≤ heroChar.experience + 100 ∧
    heroChar.gain_experience 100 =
      (true,
       { heroChar with
          level := 2
          health := 132
          damage := 12
          experience := 0
          experience_to_next_level := 200 }) := by
  refine ⟨rfl, by decide, by decide, by decide, ?_⟩
  have h := (gain_experience_cases heroChar 100 rfl (by decide)
    (by decide)).1 (by decide)
  rw [h]
  decide

/-- C5 (amended): a heal-capable sidekick heals 15 when named exactly
`"Healing Spirit"` and `damage // 2` otherwise, writing the health and
appending one negated, ability-tagged log entry - but only when the heal
amount is positive; a heal amount of 0 or less changes nothing and logs
nothing, and so does any non-heal ability string. -/
theorem use_support_ability_cases (s : Sidekick) (t : Character)
    (log : List LogEntry) (ht : 0 ≤ t.health) :
    (pyLower s.support_ability = "heal" → 0 < s.heal_amount →
      s.use_support_ability t log =
        ({ t with health := t.health + s.heal_amount },
         log ++ [⟨s.name, t.name, -s.heal_amount, s.support_ability⟩])) ∧
    (pyLower s.support_ability = "heal" → s.heal_amount ≤ 0 →
      s.use_support_ability t log = (t, log)) ∧
    (pyLower s.support_ability ≠ "heal" →
      s.use_support_ability t log = (t, log)) := by
  refine ⟨?_, ?_, ?_⟩
  · intro hab hpos
    simp only [Sidekick.use_support_ability, hab, if_pos, if_true, reduceIte]
    rw [if_pos hpos]
    unfold Character.set_health Character.get_health logCombat
    rw [max_eq_right (by omega)]
    simp
  · intro hab hnp
    simp only [Sidekick.use_support_ability, hab, reduceIte]
    rw [if_neg (not_lt.mpr hnp)]
  · intro hab
    simp only [Sidekick.use_support_ability, if_neg hab]

/-- Witness for C5 at the spec's scenario: the Healing Spirit heals the
player at health 95 to 110 with one log entry of signed damage -15. -/
theorem use_support_ability_cases_witness :
    (0:Int) ≤ hero95.health ∧
    pyLower healingSpirit.support_ability = "heal" ∧
    (0:Int) < healingSpirit.heal_amount ∧
    healingSpirit.use_support_ability hero95 [] =
      ({ hero95 with health := 110 },
       [⟨"Healing Spirit", "Hero", -15, "Heal"⟩]) := by
  refine ⟨by decide, by decide, by decide, ?_⟩
  have h := (use_support_ability_cases healingSpirit hero95 []
    (by decide)).1 (by decide) (by decide)
  rw [h]
  decide

/-- A key outside the key list looks up to nothing. -/
theorem lookupStack_eq_none_of_not_mem (l : List (String × Stack))
    (n : String) (h : n ∉ l.map Prod.fst) : lookupStack l n = none := by
  induction l with
  | nil => rfl
  | cons kv rest ih =>
    obtain ⟨k, v⟩ := kv
    simp only [List.map_cons, List.mem_cons, not_or] at h
    simp only [lookupStack]
    rw [if_neg (fun e => h.1 e.symm)]
    exact ih h.2

/-- `modifyStack` rewrites the looked-up entry under its key. -/
theorem lookup_modifyStack_self (l : List (String × Stack)) (n : String)
    (f : Stack → Stack) :
    lookupStack (modifyStack l n f) n = (lookupStack l n).map f := by
  induction l with
  | nil => rfl
  | cons kv rest ih =>
    obtain ⟨k, v⟩ := kv
    simp only [modifyStack]
    by_cases h : k = n
    · simp [lookupStack, h]
    · simp [lookupStack, h, ih]

/-- `modifyStack` leaves every other key's entry alone. -/
theorem lookup_modifyStack_ne (l : List (String × Stack)) (n k0 : String)
    (f : Stack → Stack) (hk : k0 ≠ n) :
    lookupStack (modifyStack l n f) k0 = lookupStack l k0 := by
  induction l with
  | nil => rfl
  | cons kv rest ih =>
    obtain ⟨k, v⟩ := kv
    simp only [modifyStack]
    by_cases h : k = n
    · subst h
      have h0 : ¬ k = k0 := fun e => hk e.symm
      simp only [if_pos rfl, lookupStack]
      rw [if_neg h0, if_neg h0]
    · simp only [if_neg h, lookupStack]
      by_cases h0 : k = k0
      · simp [h0]
      · simp [h0, ih]

/-- `eraseKey` leaves every other key's entry alone. -/
theorem lookup_eraseKey_ne (l : List (String × Stack)) (n k0 : String)
    (hk : k0 ≠ n) :
    lookupStack (eraseKey l n) k0 = lookupStack l k0 := by
  induction l with
  | nil => rfl
  | cons kv rest ih =>
    obtain ⟨k, v⟩ := kv
    simp only [eraseKey]
    by_cases h : k = n
    · subst h
      have h0 : ¬ k = k0 := fun e => hk e.symm
      rw [if_pos rfl]
      conv_rhs => rw [lookupStack]
      rw [if_neg h0]
    · simp only [if_neg h, lookupStack]
      by_cases h0 : k = k0
      · simp [h0]
      · simp [h0, ih]

/-- With the dict's unique keys, erasing a key removes its entry. -/
theorem lookup_eraseKey_self (l : List (String × Stack)) (n : String)
    (h : (l.map Prod.fst).Nodup) : lookupStack (eraseKey l n) n = none := by
  induction l with
  | nil => rfl
  | cons kv rest ih =>
    obtain ⟨k, v⟩ := kv
    simp only [List.map_cons, List.nodup_cons] at h
    simp only [eraseKey]
    by_cases hkn : k = n
    · subst hkn
      rw [if_pos rfl]
      exact lookupStack_eq_none_of_not_mem rest k h.1
    · rw [if_neg hkn]
      simp only [lookupStack]
      rw [if_neg hkn]
      exact ih h.2

/-- Erasing the key just modified erases the same (first) entry. -/
theorem eraseKey_modifyStack (l : List (String × Stack)) (n : String)
    (f : Stack → Stack) : eraseKey (modifyStack l n f) n = eraseKey l n := by
  induction l with
  | nil => rfl
  | cons kv rest ih =>
    obtain ⟨k, v⟩ := kv
    simp only [modifyStack, eraseKey]
    by_cases h : k = n
    · simp [eraseKey, h]
    · simp [eraseKey, h, ih]

/-- Every entry of `modifyStack l n f` is an original entry or the image
under `f` of the entry looked up at `n`. -/
theorem mem_modifyStack (l : List (String × Stack)) (n : String)
    (f : Stack → Stack) (p : String × Stack) (hp : p ∈ modifyStack l n f) :
    p ∈ l ∨ ∃ st, lookupStack l n = some st ∧ p = (n, f st) := by
  induction l with
  | nil => exact absurd hp (by simp [modifyStack])
  | cons kv rest ih =>
    obtain ⟨k, v⟩ := kv
    simp only [modifyStack] at hp
    by_cases h : k = n
    · subst h
      rw [if_pos rfl] at hp
      rcases List.mem_cons.mp hp with h1 | h1
      · exact Or.inr ⟨v, by simp [lookupStack], h1⟩
      · exact Or.inl (List.mem_cons_of_mem _ h1)
    · rw [if_neg h] at hp
      rcases List.mem_cons.mp hp with h1 | h1
      · exact Or.inl (h1 ▸ List.mem_cons_self _ _)
      · rcases ih h1 with h2 | ⟨st, hst, he⟩
        · exact Or.inl (List.mem_cons_of_mem _ h2)
        · refine Or.inr ⟨st, ?_, he⟩
          simp [lookupStack, h, hst]

/-- `eraseKey` only removes entries. -/
theorem mem_eraseKey (l : List (String × Stack)) (n : String)
    (p : String × Stack) (hp : p ∈ eraseKey l n) : p ∈ l := by
  induction l with
  | nil => exact absurd hp (by simp [eraseKey])
  | cons kv rest ih =>
    obtain ⟨k, v⟩ := kv
    simp only [eraseKey] at hp
    by_cases h : k = n
    · rw [if_pos h] at hp
      exact List.mem_cons_of_mem _ hp
    · rw [if_neg h] at hp
      rcases List.mem_cons.mp hp with h1 | h1
      · exact h1 ▸ List.mem_cons_self _ _
      · exact List.mem_cons_of_mem _ (ih h1)

/-- `modifyStack` keeps the key list unchanged. -/
theorem keys_modifyStack (l : List (String × Stack)) (n : String)
    (f : Stack → Stack) :
    (modifyStack l n f).map Prod.fst = l.map Prod.fst := by
  induction l with
  | nil => rfl
  | cons kv rest ih =>
    obtain ⟨k, v⟩ := kv
    simp only [modifyStack]
    by_cases h : k = n
    · rw [if_pos h]; simp
    · rw [if_neg h]; simp [ih]

/-- `remove_item` on an absent name fails without change. -/
theorem remove_item_absent (inv : Inventory) (n : String) (q : Int)
    (h : lookupStack inv.items n = none) :
    inv.remove_item n q = (false, inv) := by
  unfold Inventory.remove_item
  rw [h]

/-- `remove_item` with too little stock fails without change. -/
theorem remove_item_insufficient (inv : Inventory) (n : String) (q : Int)
    (st : Stack) (h : lookupStack inv.items n = some st)
    (hlt : st.quantity < q) : inv.remove_item n q = (false, inv) := by
  unfold Inventory.remove_item
  rw [h]
  dsimp only
  rw [if_neg (not_le.mpr hlt)]

/-- `remove_item` deleting the stack that reaches quantity zero. -/
theorem remove_item_delete (inv : Inventory) (n : String) (q : Int)
    (st : Stack) (h : lookupStack inv.items n = some st)
    (hle : q ≤ st.quantity) (hz : st.quantity - q = 0) :
    inv.remove_item n q =
      (true,
       { inv with
          items := eraseKey (modifyStack inv.items n (decrementStack q)) n }) := by
  unfold Inventory.remove_item
  rw [h]
  dsimp only
  rw [if_pos hle, if_pos hz]

/-- `remove_item` decrementing a stack that stays nonzero. -/
theorem remove_item_decrement (inv : Inventory) (n : String) (q : Int)
    (st : Stack) (h : lookupStack inv.items n = some st)
    (hle : q ≤ st.quantity) (hz : ¬ st.quantity - q = 0) :
    inv.remove_item n q =
      (true,
       { inv with items := modifyStack inv.items n (decrementStack q) }) := by
  unfold Inventory.remove_item
  rw [h]
  dsimp only
  rw [if_pos hle, if_neg hz]

/-- C8: `removeItem(name, qty)` fails and leaves the inventory unchanged
when the name is absent or its quantity is below `qty`; on success it
decrements that stack by `qty`, deletes the entry exactly when the
quantity reaches zero, leaves every other stack alone, and preserves the
`quantity > 0` invariant. -/
theorem remove_item_cases (inv : Inventory) (name : String) (qty : Int)
    (hkeys : (inv.items.map Prod.fst).Nodup) :
    (lookupStack inv.items name = none →
      inv.remove_item name qty = (false, inv)) ∧
    (∀ st, lookupStack inv.items name = some st → st.quantity < qty →
      inv.remove_item name qty = (false, inv)) ∧
    (∀ st, lookupStack inv.items name = some st → qty ≤ st.quantity →
      (inv.remove_item name qty).1 = true ∧
      lookupStack (inv.remove_item name qty).2.items name =
        (if st.quantity - qty = 0 then none
         else some { st with quantity := st.quantity - qty }) ∧
      (∀ k, k ≠ name →
        lookupStack (inv.remove_item name qty).2.items k =
          lookupStack inv.items k)) ∧
    ((∀ p ∈ inv.items, 0 < p.2.quantity) →
      ∀ p ∈ (inv.remove_item name qty).2.items, 0 < p.2.quantity) := by
  refine ⟨remove_item_absent inv name qty,
    fun st h hlt => remove_item_insufficient inv name qty st h hlt, ?_, ?_⟩
  · intro st h hle
    by_cases hz : st.quantity - qty = 0
    · rw [remove_item_delete inv name qty st h hle hz]
      refine ⟨rfl, ?_, ?_⟩
      · dsimp only
        rw [if_pos hz]
        exact lookup_eraseKey_self _ _
          (by rw [keys_modifyStack]; exact hkeys)
      · intro k hk
        dsimp only
        rw [lookup_eraseKey_ne _ _ _ hk, lookup_modifyStack_ne _ _ _ _ hk]
    · rw [remove_item_decrement inv name qty st h hle hz]
      refine ⟨rfl, ?_, ?_⟩
      · dsimp only
        rw [if_neg hz, lookup_modifyStack_self, h]
        rfl
      · intro k hk
        dsimp only
        rw [lookup_modifyStack_ne _ _ _ _ hk]
  · intro hpre p hp
    cases hlk : lookupStack inv.items name with
    | none =>
      rw [remove_item_absent inv name qty hlk] at hp
      exact hpre p hp
    | some st =>
      by_cases hle : qty ≤ st.quantity
      · by_cases hz : st.quantity - qty = 0
        · rw [remove_item_delete inv name qty st hlk hle hz] at hp
          dsimp only at hp
          rw [eraseKey_modifyStack] at hp
          exact hpre p (mem_eraseKey _ _ _ hp)
        · rw [remove_item_decrement inv name qty st hlk hle hz] at hp
          dsimp only at hp
          rcases mem_modifyStack _ _ _ _ hp with h1 | ⟨st', hst', he⟩
          · exact hpre p h1
          · rw [hlk] at hst'
            injection hst' with e
            subst e
            subst he
            dsimp only [decrementStack]
            omega
      · rw [remove_item_insufficient inv name qty st hlk
          (not_le.mp hle)] at hp
        exact hpre p hp

/-- Witness for C8 at the spec's scenario: removing 2 Potions from a
single-Potion inventory fails and changes nothing. -/
theorem remove_item_cases_witness :
    (potionOnlyInv.items.map Prod.fst).Nodup ∧
    potionOnlyInv.remove_item "Potion" 2 = (false, potionOnlyInv) := by
  refine ⟨by decide, ?_⟩
  exact (remove_item_cases potionOnlyInv "Potion" 2 (by decide)).2.1
    ⟨Item.basic "Potion" "A potion" 5, 1⟩ (by decide) (by decide)
